import Mathlib

/-!
Verification of the build pipeline in `server/build.go` of postui/esm-delivery.

The Go source is shallowly embedded: pure computations become Lean
functions, the external collaborators (registry client, key-value store,
filesystem, yarn, esbuild) become explicit oracle parameters, and each
stateful loop becomes a recursion over an explicit state record.  Machine
words in the SHA-1 content address are modelled as `Nat` with explicit
reduction modulo `2 ^ 32`.
-/

/-- Modelled from the spec: the `module` specifier type (`name`, exact
`version`, optional `submodule`) is declared outside `build.go`; the spec
gives its three fields (§3 "Module specifier"). -/
structure module where
  name : String
  version : String
  submodule : String
deriving DecidableEq, Repr

/-- Modelled from the spec: `ImportPath() = name` when `submodule` is empty,
else `name + "/" + submodule` (§3). -/
def module.ImportPath (m : module) : String :=
  if m.submodule = "" then m.name else m.name ++ "/" ++ m.submodule

/-- Modelled from the spec: the specifier form used by `moduleSlice.String()`
("packages sorted and concatenated by their specifier form", §3); the element
form is `name@version` extended by `/submodule` when present. -/
def module.specForm (m : module) : String :=
  if m.submodule = "" then m.name ++ "@" ++ m.version
  else m.name ++ "@" ++ m.version ++ "/" ++ m.submodule

/-- Comma-separated join of a list of strings. -/
def joinSep : List String → String
  | [] => ""
  | [s] => s
  | s :: rest => s ++ "," ++ joinSep rest

/-- Modelled from the spec: `moduleSlice.String()` concatenates the sorted
specifier forms; a comma separator is fixed here, the spec only requires the
form to be stable. -/
def modulesString (l : List module) : String :=
  joinSep (l.map module.specForm)

/-- Modelled from the spec: registry-shaped package descriptor (§3
"Package descriptor"); only the fields read by `build.go` are kept. -/
structure NpmPackage where
  Name : String
  Version : String
  Main : String
  Types : String
  Typings : String
  Dependencies : List (String × String)
  PeerDependencies : List (String × String)
deriving DecidableEq, Repr

/-- ImportMeta from `build.go`: an embedded `NpmPackage` plus the discovered
`Exports` and the staged `TypesPath`. -/
structure ImportMeta where
  npm : NpmPackage
  Exports : List String
  TypesPath : String
deriving DecidableEq, Repr

/-- Request record `buildOptions` from `build.go`. -/
structure buildOptions where
  packages : List module
  target : String
  dev : Bool
deriving DecidableEq, Repr

/-- Byte-wise `≤` on character lists; Go compares strings byte-wise and
UTF-8 is order-isomorphic to code points, so comparing `Char` code points
is equivalent. -/
def listLeB : List Char → List Char → Bool
  | [], _ => true
  | _ :: _, [] => false
  | a :: as, b :: bs =>
    if a.toNat < b.toNat then true
    else if b.toNat < a.toNat then false
    else listLeB as bs

/-- String comparison used to model Go's `<` on strings (via `¬ b < a`,
i.e. `≤`). -/
def strLeB (a b : String) : Bool := listLeB a.data b.data

/-- Bool test that `p` is a prefix of `s`, modelling Go's
`strings.HasPrefix(s, p)`. -/
def isPrefixB : List Char → List Char → Bool
  | [], _ => true
  | _ :: _, [] => false
  | a :: as, b :: bs => a = b && isPrefixB as bs

/-- strStartsWith s p holds when the string `s` starts with `p`. -/
def strStartsWith (s p : String) : Bool := isPrefixB p.data s.data

/-- identify from `build.go` (lines 423-434), per byte: `/`, `-`, `@`, `.`
become `_`, everything else is kept.  The four replaced bytes are ASCII, so
the byte loop of the source agrees with this per-character map. -/
def identifyChar (c : Char) : Char :=
  if c = '/' ∨ c = '-' ∨ c = '@' ∨ c = '.' then '_' else c

/-- identify maps `identifyChar` over the input string (source lines
423-434). -/
def identify (importPath : String) : String := ⟨importPath.data.map identifyChar⟩

/-- pathBase models Go's `path.Base`: empty input gives `"."`, trailing
slashes are stripped, the part after the last slash is returned, and an
all-slash input gives `"/"`. -/
def pathBase (s : String) : String :=
  if s = "" then "."
  else
    let cs := s.data.reverse.dropWhile (fun c => decide (c = '/'))
    if cs = [] then "/"
    else ⟨(cs.takeWhile (fun c => decide (c ≠ '/'))).reverse⟩

/-- Reduction modulo `2 ^ 32`, the word size of the SHA-1 state. -/
def w32 (x : Nat) : Nat := x % 4294967296

/-- Left rotation of a 32-bit word. -/
def rotl32 (x n : Nat) : Nat := w32 (x <<< n) ||| (x >>> (32 - n))

/-- SHA-1 round function (FIPS 180, as implemented by Go's `crypto/sha1`
used at line 80 of the source). -/
def sha1F (t b c d : Nat) : Nat :=
  if t < 20 then (b &&& c) ||| ((4294967295 ^^^ b) &&& d)
  else if t < 40 then b ^^^ c ^^^ d
  else if t < 60 then (b &&& c) ||| (b &&& d) ||| (c &&& d)
  else b ^^^ c ^^^ d

/-- SHA-1 round constants. -/
def sha1K (t : Nat) : Nat :=
  if t < 20 then 1518500249
  else if t < 40 then 1859775393
  else if t < 60 then 2400959708
  else 3395469782

/-- Big-endian bytes of a 64-bit length field. -/
def be64 (n : Nat) : List Nat :=
  [(n >>> 56) &&& 255, (n >>> 48) &&& 255, (n >>> 40) &&& 255, (n >>> 32) &&& 255,
   (n >>> 24) &&& 255, (n >>> 16) &&& 255, (n >>> 8) &&& 255, n &&& 255]

/-- Big-endian bytes of a 32-bit word. -/
def be32 (n : Nat) : List Nat :=
  [(n >>> 24) &&& 255, (n >>> 16) &&& 255, (n >>> 8) &&& 255, n &&& 255]

/-- SHA-1 padding: append `0x80`, zero bytes to 56 mod 64, then the
big-endian bit length. -/
def sha1Pad (msg : List Nat) : List Nat :=
  let z := (120 - ((msg.length + 1) % 64)) % 64
  msg ++ [128] ++ List.replicate z 0 ++ be64 (8 * msg.length)

/-- Group bytes into big-endian 32-bit words. -/
def bytesToWords : List Nat → List Nat
  | a :: b :: c :: d :: rest => ((((a <<< 8) ||| b) <<< 8 ||| c) <<< 8 ||| d) :: bytesToWords rest
  | _ => []

/-- One step of the SHA-1 message-schedule extension. -/
def sha1ExtendStep (ws : List Nat) : List Nat :=
  ws ++ [rotl32 ((ws.getD (ws.length - 3) 0) ^^^ (ws.getD (ws.length - 8) 0) ^^^
                 (ws.getD (ws.length - 14) 0) ^^^ (ws.getD (ws.length - 16) 0)) 1]

/-- Extend 16 words of one block to the 80-word schedule. -/
def sha1Schedule (w16 : List Nat) : List Nat :=
  (List.range 64).foldl (fun ws _ => sha1ExtendStep ws) w16

/-- SHA-1 compression of one 16-word block into the running state. -/
def sha1Compress (h : Nat × Nat × Nat × Nat × Nat) (block : List Nat) :
    Nat × Nat × Nat × Nat × Nat :=
  let ws := sha1Schedule block
  let (h0, h1, h2, h3, h4) := h
  let (a, b, c, d, e) :=
    (List.range 80).foldl
      (fun (s : Nat × Nat × Nat × Nat × Nat) t =>
        let (a, b, c, d, e) := s
        let temp := w32 (rotl32 a 5 + sha1F t b c d + e + sha1K t + ws.getD t 0)
        (temp, a, rotl32 b 30, c, d))
      (h0, h1, h2, h3, h4)
  (w32 (h0 + a), w32 (h1 + b), w32 (h2 + c), w32 (h3 + d), w32 (h4 + e))

/-- Fold the compression over all blocks; the first argument is the number
of 16-word blocks. -/
def sha1Loop : Nat → (Nat × Nat × Nat × Nat × Nat) → List Nat → (Nat × Nat × Nat × Nat × Nat)
  | 0, h, _ => h
  | n + 1, h, ws => sha1Loop n (sha1Compress h (ws.take 16)) (ws.drop 16)

/-- SHA-1 digest (20 bytes) of a byte sequence; checked against the FIPS
test vectors for "", "abc" and "The quick brown fox jumps over the lazy
dog". -/
def sha1 (msg : List Nat) : List Nat :=
  let ws := bytesToWords (sha1Pad msg)
  let (h0, h1, h2, h3, h4) :=
    sha1Loop (ws.length / 16) (1732584193, 4023233417, 2562383102, 271733878, 3285377520) ws
  be32 h0 ++ be32 h1 ++ be32 h2 ++ be32 h3 ++ be32 h4

/-- UTF-8 encoding of one code point, as Go writes strings into the
hasher. -/
def utf8Bytes (c : Nat) : List Nat :=
  if c < 128 then [c]
  else if c < 2048 then [192 ||| (c >>> 6), 128 ||| (c &&& 63)]
  else if c < 65536 then
    [224 ||| (c >>> 12), 128 ||| ((c >>> 6) &&& 63), 128 ||| (c &&& 63)]
  else
    [240 ||| (c >>> 18), 128 ||| ((c >>> 12) &&& 63), 128 ||| ((c >>> 6) &&& 63), 128 ||| (c &&& 63)]

/-- UTF-8 bytes of a string. -/
def strBytes (s : String) : List Nat := (s.data.map (fun c => utf8Bytes c.toNat)).flatten

/-- RFC 4648 base32 alphabet used by Go's `base32.StdEncoding`. -/
def b32alphabet : List Char := "ABCDEFGHIJKLMNOPQRSTUVWXYZ234567".data

/-- Eight 5-bit groups of a 40-bit chunk. -/
def base32Chunk (b0 b1 b2 b3 b4 : Nat) : List Nat :=
  let n := ((((((((b0 <<< 8) ||| b1) <<< 8) ||| b2) <<< 8) ||| b3) <<< 8) ||| b4)
  [(n >>> 35) &&& 31, (n >>> 30) &&& 31, (n >>> 25) &&& 31, (n >>> 20) &&& 31,
   (n >>> 15) &&& 31, (n >>> 10) &&& 31, (n >>> 5) &&& 31, n &&& 31]

/-- Base32 encoding of a byte list whose length is a multiple of five; a
SHA-1 digest is 20 bytes, so the padded tail cases of `base32.StdEncoding`
can never be reached here and are omitted. -/
def base32Encode : List Nat → List Char
  | b0 :: b1 :: b2 :: b3 :: b4 :: rest =>
    (base32Chunk b0 b1 b2 b3 b4).map (fun i => b32alphabet.getD i 'A') ++ base32Encode rest
  | _ => []

/-- ASCII lower-casing of one character, modelling `strings.ToLower` on the
base32 output. -/
def lowerChar (c : Char) : Char :=
  if 65 ≤ c.toNat ∧ c.toNat ≤ 90 then Char.ofNat (c.toNat + 32) else c

/-- ASCII lower-casing of a string. -/
def toLowerStr (s : String) : String := ⟨s.data.map lowerChar⟩

/-- Sorting relation of `moduleSlice`.  Modelled from the spec: the ordering
is "lexicographic on `ImportPath()`" (§3); the `Less` implementation itself
is not under `src/`. -/
def mLe (a b : module) : Prop := strLeB a.ImportPath b.ImportPath = true

instance : DecidableRel mLe := fun a b =>
  inferInstanceAs (Decidable (strLeB a.ImportPath b.ImportPath = true))

/-- Sorting of the packages slice performed by `sort.Sort(options.packages)`
(line 81); Go's sort keeps tied keys of a 2-element slice in place, which an
insertion sort reproduces. -/
def sortModules (l : List module) : List module := List.insertionSort mLe l

/-- Build identifier derivation from `build.go` lines 68-84: the literal
single-mode form for one package, otherwise `"bundle-"` plus the lower-cased
base32 of the SHA-1 of `"{packages.String()} {target} {dev}"` computed over
the sorted packages. -/
def buildID (o : buildOptions) : String :=
  if o.packages.length = 1 then
    let pkg := o.packages.headD ⟨"", "", ""⟩
    let filename0 := if pkg.submodule ≠ "" then pkg.submodule else pathBase pkg.name
    let filename := if o.dev then filename0 ++ ".development" else filename0
    pkg.name ++ "@" ++ pkg.version ++ "/" ++ o.target ++ "/" ++ filename
  else
    "bundle-" ++ toLowerStr ⟨base32Encode (sha1 (strBytes
      (modulesString (sortModules o.packages) ++ " " ++ o.target ++ " " ++
        (if o.dev then "true" else "false"))))⟩

/-- Key ordering together with distinctness of the `ImportPath` keys; two
sorted lists over this relation are unique among each other's
permutations. -/
def mLtKey (a b : module) : Prop := mLe a b ∧ a.ImportPath ≠ b.ImportPath

/-- Order of the packages slice used by every stage after identifier
derivation: `sort.Sort` (line 81) mutates `options.packages` in place, so in
bundle mode all later loops over `options.packages` see the sorted slice. -/
def buildOrder (o : buildOptions) : List module :=
  if o.packages.length = 1 then o.packages else sortModules o.packages

/-- Bundle-mode entry line emitted for one package (source line 295). -/
def exportLineBundle (m : module) : String :=
  "export * as " ++ identify m.ImportPath ++ " from \"" ++ m.ImportPath ++ "\";"

/-- Bundle-mode `bundle.js` contents (source lines 286-297, bundle branch). -/
def entrySourceBundle (o : buildOptions) : String :=
  String.join ((buildOrder o).map exportLineBundle)

/-- Prologue of the introspection script `peer.js` (source lines 211-212). -/
def introPro : String :=
  "const meta = \x7b\x7d;const isObject = v => typeof v === \x27object\x27 && v !== null;"

/-- Per-package lines of the introspection script (source lines 213-218). -/
def introLine (m : module) : String :=
  "const " ++ identify m.ImportPath ++ " = require(\"" ++ m.ImportPath ++ "\");" ++
  "meta[\"" ++ m.ImportPath ++ "\"] = \x7bexports: isObject(" ++ identify m.ImportPath ++
  ") ? Object.keys(" ++ identify m.ImportPath ++ ") : []\x7d;"

/-- Epilogue of the introspection script (source line 219). -/
def introEpi : String := "process.stdout.write(JSON.stringify(meta));"

/-- Whole introspection script, assembled over the post-sort package order. -/
def introSource (o : buildOptions) : String :=
  introPro ++ String.join ((buildOrder o).map introLine) ++ introEpi

/-- Sentinel registry error tolerated for a missing `@types` package
(source line 137). -/
def sentinelNotFound (name : String) : String :=
  "npm: package \x27@types/" ++ name ++ "\x27 not found"

/-- State threaded through the package-info resolution loop (source lines
110-142): the yarn install list, the importMeta map as an association list,
the set of peer-dependency names, and a ghost log of the `@types` probes
issued to the registry. -/
structure ResolveState where
  installList : List String
  importMeta : List (String × ImportMeta)
  peerDeps : List String
  probes : List String
deriving DecidableEq, Repr

/-- Initial resolve state: the install list seeded with `name@version` of
every requested package (source lines 110-116). -/
def initState (packages : List module) : ResolveState :=
  { installList := packages.map (fun pkg => pkg.name ++ "@" ++ pkg.version)
    importMeta := []
    peerDeps := []
    probes := [] }

/-- Insertion of names into the peer-dependency set, keeping first
occurrence order; models `peerDependencies[name] = struct{}{}` over a Go
map used only for membership. -/
def insertPeers (peers : List String) (names : List String) : List String :=
  names.foldl (fun acc n => if n ∈ acc then acc else acc ++ [n]) peers

/-- Go-map style insertion into the importMeta association list: replace the
entry when the key exists, append otherwise. -/
def upsert (l : List (String × ImportMeta)) (key : String) (v : ImportMeta) :
    List (String × ImportMeta) :=
  if l.any (fun kv => decide (kv.1 = key)) then
    l.map (fun kv => if kv.1 = key then (key, v) else kv)
  else l ++ [(key, v)]

/-- Guard of the `@types` probe (source line 130):
`meta.Types == "" && meta.Typings == "" && !strings.HasPrefix(pkg.name, "@")`. -/
def needsTypesProbe (pkg : module) (p : NpmPackage) : Bool :=
  decide (p.Types = "") && decide (p.Typings = "") && !(strStartsWith pkg.name "@")

/-- One iteration of the package-info resolution loop (source lines
118-142): fetch the descriptor, record its peer dependencies, probe
`@types/{name}@latest` for non-scoped packages without inline types
(ignoring exactly the sentinel not-found error), and store the ImportMeta
under the package's import path. -/
def resolveOne (reg : String → String → Except String NpmPackage)
    (st : ResolveState) (pkg : module) : Except String ResolveState :=
  match reg pkg.name pkg.version with
  | .error e => .error e
  | .ok p =>
    let st1 : ResolveState :=
      { st with peerDeps := insertPeers st.peerDeps (p.PeerDependencies.map Prod.fst) }
    let meta : ImportMeta := { npm := p, Exports := [], TypesPath := "" }
    if needsTypesProbe pkg p then
      let st2 : ResolveState := { st1 with probes := st1.probes ++ ["@types/" ++ pkg.name] }
      match reg ("@types/" ++ pkg.name) "latest" with
      | .ok info =>
        let st3 : ResolveState :=
          if info.Types ≠ "" ∨ info.Typings ≠ "" ∨ info.Main ≠ "" then
            { st2 with installList := st2.installList ++ [info.Name ++ "@" ++ info.Version] }
          else st2
        .ok { st3 with importMeta := upsert st3.importMeta pkg.ImportPath meta }
      | .error e =>
        if e ≠ sentinelNotFound pkg.name then .error e
        else .ok { st2 with importMeta := upsert st2.importMeta pkg.ImportPath meta }
    else
      .ok { st1 with importMeta := upsert st1.importMeta pkg.ImportPath meta }

/-- The whole resolution loop over the requested packages. -/
def resolveAll (reg : String → String → Except String NpmPackage) :
    List module → ResolveState → Except String ResolveState
  | [], st => .ok st
  | pkg :: rest, st =>
    match resolveOne reg st pkg with
    | .error e => .error e
    | .ok st' => resolveAll reg rest st'

/-- Condition under which the loop issues a `@types/{name}@latest` probe
for a requested package: the main lookup succeeded with empty `Types` and
`Typings` and the name is not scoped. -/
def typesProbeNeeded (reg : String → String → Except String NpmPackage) (pkg : module) : Bool :=
  match reg pkg.name pkg.version with
  | .ok d => needsTypesProbe pkg d
  | .error _ => false

/-- Resolution stage of the pipeline, running over the post-sort order. -/
def resolveBuild (reg : String → String → Except String NpmPackage) (o : buildOptions) :
    Except String ResolveState :=
  resolveAll reg (buildOrder o) (initState (buildOrder o))

/-- Merge of the introspection output into importMeta (source lines
245-250): only keys already present are updated; nothing is inserted. -/
def mergeExports (meta : List (String × ImportMeta)) (out : List (String × List String)) :
    List (String × ImportMeta) :=
  out.foldl
    (fun acc kv =>
      acc.map (fun entry => if entry.1 = kv.1 then (entry.1, { entry.2 with Exports := kv.2 }) else entry))
    meta

/-- Independence test of a peer-dependency name (source lines 146-162): a
peer is independent when it is not a requested package and not a key of any
requested package's `Dependencies`. -/
def isIndependent (packages : List module) (importMeta : List (String × ImportMeta))
    (name : String) : Bool :=
  !(packages.any (fun pkg => decide (pkg.name = name))) &&
  !(importMeta.any (fun kv => kv.2.npm.Dependencies.any (fun dep => decide (dep.1 = name))))

/-- Peer-dependency classification loop (source lines 144-169).  For each
peer name: when independent it is appended to the install list; in single
mode the name is recorded in `independentPackages` with version `"latest"`
regardless of independence (the `if ret.single` block at lines 166-168 is
not guarded by `independent`).  The second component is the
`independentPackages` map, whose keys later become the esbuild `Externals`
(source lines 304-315). -/
def classifyPeers (single : Bool) (packages : List module)
    (importMeta : List (String × ImportMeta)) (installList : List String) :
    List String → List String × List (String × String)
  | [] => (installList, [])
  | name :: rest =>
    let r := classifyPeers single packages importMeta
      (if isIndependent packages importMeta name then installList ++ [name] else installList) rest
    (r.1, (if single then [(name, "latest")] else []) ++ r.2)

/-- Outcome of the `db.Get` cache lookup (source line 86): a raw record, a
not-found miss, or another store error. -/
inductive CacheGetResult where
  | ok (raw : String)
  | notFound
  | otherErr (e : String)

/-- Result of the cache-lookup prologue of `build` (source lines 86-108):
an early return serving cached (or, after a failed decode, absent) metadata,
a fall-through to a rebuild, or a fatal error. -/
inductive CacheOutcome where
  | hit (meta : Option (List (String × ImportMeta)))
  | miss
  | fatal (e : String)
deriving DecidableEq

/-- Cache-lookup prologue of `build` (source lines 86-108), with the KV
store, the JSON decoder, `db.Delete` and the artifact `os.Stat` supplied as
oracles.  When the JSON decode fails, `json.Unmarshal` leaves
`ret.importMeta` unset, which `hit none` records; both `db.Delete` call
sites receive the same oracle result. -/
def cacheLookup (getRes : CacheGetResult)
    (decodeMeta : String → Option (List (String × ImportMeta)))
    (deleteRes : Except String Unit) (fileExists : Bool) : CacheOutcome :=
  match getRes with
  | .notFound => .miss
  | .otherErr e => .fatal e
  | .ok raw =>
    match decodeMeta raw with
    | none =>
      match deleteRes with
      | .error e => .fatal e
      | .ok _ =>
        if fileExists then .hit none
        else
          match deleteRes with
          | .error e => .fatal e
          | .ok _ => .miss
    | some meta =>
      if fileExists then .hit (some meta)
      else
        match deleteRes with
        | .error e => .fatal e
        | .ok _ => .miss

/-- Persistence epilogue of `build` (source lines 385-407): `os.Create` and
`io.Copy` failures are returned, while the result of `db.Put` is discarded
by the source (the call's return value is not assigned), after which the
computed importMeta is returned. -/
def finishBuild (createRes copyRes putRes : Except String Unit)
    (importMeta : List (String × ImportMeta)) : Except String (List (String × ImportMeta)) :=
  match createRes with
  | .error e => .error e
  | .ok _ =>
    match copyRes with
    | .error e => .error e
    | .ok _ =>
      let _ := putRes
      .ok importMeta

/-- Result of one esbuild invocation: output contents or the text of the
first error (`result.Errors[0].Text`, source line 337). -/
inductive EsbuildOutcome where
  | ok (output : String)
  | fail (firstText : String)

/-- Error-text pattern that triggers the resolution-retry loop (source line
338). -/
def couldNotResolveMsg : String := "Could not resolve \""

/-- Split of a character list at every double quote, modelling
`strings.Split(text, "\"")`. -/
def splitOnQuote : List Char → List (List Char)
  | [] => [[]]
  | '"' :: rest => [] :: splitOnQuote rest
  | c :: rest =>
    match splitOnQuote rest with
    | [] => [[c]]
    | s :: ss => (c :: s) :: ss

/-- Module name extracted from an esbuild error text:
`strings.Split(fe.Text, "\"")[1]` (source line 339). -/
def missingModuleOf (t : String) : String := ⟨(splitOnQuote t.data).getD 1 []⟩

/-- Resolution-retry loop around esbuild (source lines 317-354).  The
bundler is an oracle supplying one outcome per attempt; `seen` is the
`missingResolved` set and the last argument is a ghost log of the names
passed to `yarnAdd`.  On an error whose first text starts with
`Could not resolve "`, a non-empty, not-yet-seen extracted name is
installed and the bundle retried; otherwise the build fails with the error
text prefixed by `esbuild: `. -/
def retryLoop (yarn : String → Except String Unit) :
    List EsbuildOutcome → List String → List String → Except String (String × List String)
  | [], _, _ => .error "no bundler outcome"
  | .ok out :: _, _, installs => .ok (out, installs)
  | .fail t :: rest, seen, installs =>
    if strStartsWith t couldNotResolveMsg then
      let missing := missingModuleOf t
      if missing ≠ "" ∧ missing ∉ seen then
        match yarn missing with
        | .error e => .error e
        | .ok _ => retryLoop yarn rest (missing :: seen) (installs ++ [missing])
      else .error ("esbuild: " ++ t)
    else .error ("esbuild: " ++ t)

/-- Fixture: a yarn oracle whose installs always succeed. -/
def yarnOk : String → Except String Unit := fun _ => .ok ()

/-- Fixture: descriptor of `lodash` without inline types. -/
def npmLodash : NpmPackage := ⟨"lodash", "4.17.21", "index.js", "", "", [], []⟩

/-- Fixture: descriptor of a scoped package without inline types. -/
def npmScope : NpmPackage := ⟨"@scope/pkg", "1.0.0", "", "", "", [], []⟩

/-- Fixture: descriptor of `left-pad` without inline types. -/
def npmLeftPad : NpmPackage := ⟨"left-pad", "1.3.0", "index.js", "", "", [], []⟩

/-- Fixture: a two-package request with one scoped package. -/
def pkgsW : List module := [⟨"lodash", "4.17.21", ""⟩, ⟨"@scope/pkg", "1.0.0", ""⟩]

/-- Fixture: registry oracle for `pkgsW`; the `@types/lodash` probe fails
with exactly the sentinel message. -/
def regW : String → String → Except String NpmPackage := fun name _ =>
  if name = "lodash" then .ok npmLodash
  else if name = "@types/lodash" then .error (sentinelNotFound "lodash")
  else if name = "@scope/pkg" then .ok npmScope
  else .error ("npm: package \x27" ++ name ++ "\x27 not found")

/-- Fixture: single-package request for `left-pad`. -/
def pkgs8 : List module := [⟨"left-pad", "1.3.0", ""⟩]

/-- Fixture: registry oracle for `pkgs8`. -/
def reg8 : String → String → Except String NpmPackage := fun name _ =>
  if name = "left-pad" then .ok npmLeftPad
  else if name = "@types/left-pad" then .error (sentinelNotFound "left-pad")
  else .error ("npm: package \x27" ++ name ++ "\x27 not found")

/-- Fixture: packages of the C1 bundle-mode counterexample. -/
def pkgsX : List module := [⟨"a", "1", ""⟩, ⟨"b", "1", ""⟩]

/-- Fixture: importMeta of the C1 bundle-mode counterexample; package `a`
peer-depends on `x`, which nobody requested or depends on. -/
def metaX : List (String × ImportMeta) :=
  [("a", ⟨⟨"a", "1", "", "", "", [], [("x", "*")]⟩, [], ""⟩)]

/-- Fixture: packages of the C1 single-mode counterexample. -/
def pkgsY : List module := [⟨"a", "1", ""⟩]

/-- Fixture: importMeta of the C1 single-mode counterexample; the peer `y`
is also a regular dependency of `a`, hence not independent. -/
def metaY : List (String × ImportMeta) :=
  [("a", ⟨⟨"a", "1", "", "", "", [("y", "^1")], [("y", "^1")]⟩, [], ""⟩)]

/-- C5: for a request with exactly one package, the build identifier is the
literal string `{name}@{version}/{target}/{filename}` where `filename` is
the submodule when non-empty, otherwise the last path segment of the name,
with `.development` appended when `dev` is set. -/
theorem C5_single_buildID (o : buildOptions) (pkg : module) (h : o.packages = [pkg]) :
    buildID o = pkg.name ++ "@" ++ pkg.version ++ "/" ++ o.target ++ "/" ++
      ((if pkg.submodule ≠ "" then pkg.submodule else pathBase pkg.name) ++
        (if o.dev then ".development" else "")) := by
  unfold buildID
  rw [h]
  simp only [List.length_cons, List.length_nil, if_pos rfl, List.headD_cons]
  cases hd : o.dev <;> simp

/-- Witness for C5 at the request `left-pad@1.3.0`, `es2019`, production. -/
theorem C5_single_buildID_witness :
    buildID ⟨[⟨"left-pad", "1.3.0", ""⟩], "es2019", false⟩ =
      "left-pad@1.3.0/es2019/left-pad" := by
  rw [C5_single_buildID ⟨[⟨"left-pad", "1.3.0", ""⟩], "es2019", false⟩ ⟨"left-pad", "1.3.0", ""⟩ rfl]
  decide

/-- C9: `identify` sends each of `/`, `-`, `@`, `.` to `_`, leaves every
other character unchanged, acts point-wise on its input, and is
idempotent. -/
theorem C9_identify :
    (∀ c, (c = '/' ∨ c = '-' ∨ c = '@' ∨ c = '.') → identifyChar c = '_') ∧
    (∀ c, ¬(c = '/' ∨ c = '-' ∨ c = '@' ∨ c = '.') → identifyChar c = c) ∧
    (∀ x : String, (identify x).data = x.data.map identifyChar) ∧
    (∀ x : String, identify (identify x) = identify x) := by
  refine ⟨fun c hc => if_pos hc, fun c hc => if_neg hc, fun x => rfl, fun x => ?_⟩
  apply String.ext
  show (x.data.map identifyChar).map identifyChar = x.data.map identifyChar
  rw [List.map_map]
  apply List.map_congr_left
  intro c _
  show identifyChar (identifyChar c) = identifyChar c
  by_cases hc : c = '/' ∨ c = '-' ∨ c = '@' ∨ c = '.'
  · have h : identifyChar c = '_' := if_pos hc
    rw [h]; decide
  · have h : identifyChar c = c := if_neg hc
    rw [h]; exact h

/-- Witness for C9: a replaced character and idempotence at a concrete
example of an import path. -/
theorem C9_identify_witness :
    identifyChar '/' = '_' ∧
      identify (identify "preact@10.5.0/hooks") = identify "preact@10.5.0/hooks" :=
  ⟨C9_identify.1 '/' (.inl rfl), C9_identify.2.2.2 "preact@10.5.0/hooks"⟩

set_option maxRecDepth 40000

/-- Totality of the byte-wise comparison. -/
theorem listLeB_total (x : List Char) : ∀ y, listLeB x y = true ∨ listLeB y x = true := by
  induction x with
  | nil => intro y; exact .inl rfl
  | cons a as ih =>
    intro y
    cases y with
    | nil => exact .inr rfl
    | cons b bs =>
      by_cases h1 : a.toNat < b.toNat
      · left; simp [listLeB, h1]
      · by_cases h2 : b.toNat < a.toNat
        · right; simp [listLeB, h2]
        · have h := ih bs
          simp only [listLeB, if_neg h1, if_neg h2]
          exact h

/-- Transitivity of the byte-wise comparison. -/
theorem listLeB_trans : ∀ (x y z : List Char),
    listLeB x y = true → listLeB y z = true → listLeB x z = true := by
  intro x
  induction x with
  | nil => intro y z _ _; rfl
  | cons a as ih =>
    intro y z hxy hyz
    cases y with
    | nil => simp [listLeB] at hxy
    | cons b bs =>
      cases z with
      | nil => simp [listLeB] at hyz
      | cons c cs =>
        simp only [listLeB] at hxy hyz ⊢
        by_cases h5 : a.toNat < c.toNat
        · rw [if_pos h5]
        · by_cases h1 : a.toNat < b.toNat
          · by_cases h3 : b.toNat < c.toNat
            · omega
            · by_cases h4 : c.toNat < b.toNat
              · rw [if_neg h3, if_pos h4] at hyz
                exact absurd hyz (by decide)
              · omega
          · by_cases h2 : b.toNat < a.toNat
            · rw [if_neg h1, if_pos h2] at hxy
              exact absurd hxy (by decide)
            · by_cases h3 : b.toNat < c.toNat
              · omega
              · by_cases h4 : c.toNat < b.toNat
                · rw [if_neg h3, if_pos h4] at hyz
                  exact absurd hyz (by decide)
                · have h6 : ¬ c.toNat < a.toNat := by omega
                  rw [if_neg h1, if_neg h2] at hxy
                  rw [if_neg h3, if_neg h4] at hyz
                  rw [if_neg h5, if_neg h6]
                  exact ih bs cs hxy hyz

/-- Antisymmetry of the byte-wise comparison. -/
theorem listLeB_antisymm : ∀ (x y : List Char),
    listLeB x y = true → listLeB y x = true → x = y := by
  intro x
  induction x with
  | nil =>
    intro y _ hyx
    cases y with
    | nil => rfl
    | cons b bs => simp [listLeB] at hyx
  | cons a as ih =>
    intro y hxy hyx
    cases y with
    | nil => simp [listLeB] at hxy
    | cons b bs =>
      simp only [listLeB] at hxy hyx
      by_cases h1 : a.toNat < b.toNat
      · have h2 : ¬ b.toNat < a.toNat := by omega
        rw [if_neg h2, if_pos h1] at hyx
        exact absurd hyx (by decide)
      · by_cases h2 : b.toNat < a.toNat
        · rw [if_neg h1, if_pos h2] at hxy
          exact absurd hxy (by decide)
        · have hn : a.toNat = b.toNat := by omega
          have hab : a = b := Char.eq_of_val_eq (UInt32.ext hn)
          rw [if_neg h1, if_neg h2] at hxy
          rw [if_neg h2, if_neg h1] at hyx
          rw [hab, ih bs hxy hyx]

/-- Totality of `strLeB`. -/
theorem strLeB_total (a b : String) : strLeB a b = true ∨ strLeB b a = true :=
  listLeB_total a.data b.data

/-- Transitivity of `strLeB`. -/
theorem strLeB_trans {a b c : String} (h1 : strLeB a b = true) (h2 : strLeB b c = true) :
    strLeB a c = true :=
  listLeB_trans _ _ _ h1 h2

/-- Antisymmetry of `strLeB`. -/
theorem strLeB_antisymm {a b : String} (h1 : strLeB a b = true) (h2 : strLeB b a = true) :
    a = b :=
  String.ext (listLeB_antisymm _ _ h1 h2)

/-- Sorting a list of modules whose import paths are pairwise distinct is
invariant under permutation of the input. -/
theorem sortModules_eq_of_perm {p q : List module} (hperm : p.Perm q)
    (hnd : (p.map module.ImportPath).Nodup) : sortModules p = sortModules q := by
  haveI : IsTotal module mLe := ⟨fun a b => strLeB_total _ _⟩
  haveI : IsTrans module mLe := ⟨fun _ _ _ => strLeB_trans⟩
  haveI : IsAntisymm module mLtKey :=
    ⟨fun a b h1 h2 => absurd (strLeB_antisymm h1.1 h2.1) h1.2⟩
  have hps : List.Sorted mLe (sortModules p) := List.sorted_insertionSort mLe p
  have hqs : List.Sorted mLe (sortModules q) := List.sorted_insertionSort mLe q
  have hpp : (sortModules p).Perm p := List.perm_insertionSort mLe p
  have hqq : (sortModules q).Perm q := List.perm_insertionSort mLe q
  have hpq : (sortModules p).Perm (sortModules q) := hpp.trans (hperm.trans hqq.symm)
  have hndp : ((sortModules p).map module.ImportPath).Nodup :=
    ((hpp.map module.ImportPath).nodup_iff).mpr hnd
  have hndq : ((sortModules q).map module.ImportPath).Nodup :=
    ((hpq.map module.ImportPath).nodup_iff).mp hndp
  have hps' : List.Sorted mLtKey (sortModules p) := hps.and (List.pairwise_map.mp hndp)
  have hqs' : List.Sorted mLtKey (sortModules q) := hqs.and (List.pairwise_map.mp hndq)
  exact List.eq_of_perm_of_sorted hpq hps' hqs'

/-- C6 counterexample: two requests that are permutations of each other —
two specifiers sharing the import path `a` with versions `1` and `2` — get
different bundle identifiers, because the sort key (the import path) ties
and the canonical string keeps the input order of the tied elements. -/
theorem C6_bundle_perm_counterexample :
    buildID ⟨[⟨"a", "1", ""⟩, ⟨"a", "2", ""⟩], "es2019", false⟩ ≠
      buildID ⟨[⟨"a", "2", ""⟩, ⟨"a", "1", ""⟩], "es2019", false⟩ := by decide

/-- C6 (amended): for a request with more than one package whose import
paths are pairwise distinct, the bundle identifier is unchanged under any
permutation of the packages sequence. -/
theorem C6_bundle_perm_amended (p q : List module) (t : String) (d : Bool)
    (hlen : 1 < p.length) (hperm : p.Perm q)
    (hnd : (p.map module.ImportPath).Nodup) :
    buildID ⟨p, t, d⟩ = buildID ⟨q, t, d⟩ := by
  have hql : q.length = p.length := (hperm.length_eq).symm
  have hp1 : ¬ p.length = 1 := by omega
  have hq1 : ¬ q.length = 1 := by omega
  unfold buildID
  rw [if_neg hp1, if_neg hq1, sortModules_eq_of_perm hperm hnd]

/-- Witness for C6 (amended) on the permuted two-package react request. -/
theorem C6_bundle_perm_witness :
    buildID ⟨[⟨"react-dom", "17.0.2", ""⟩, ⟨"react", "17.0.2", ""⟩], "es2019", false⟩ =
      buildID ⟨[⟨"react", "17.0.2", ""⟩, ⟨"react-dom", "17.0.2", ""⟩], "es2019", false⟩ :=
  C6_bundle_perm_amended _ _ "es2019" false (by decide) (List.Perm.swap _ _ _) (by decide)

/-- C10: in bundle mode the pipeline order is the in-place sorted packages
slice: it is a permutation of the request, sorted by import path, and the
registry resolution, the introspection script and the `bundle.js` export
lines are all generated over that sorted order. -/
theorem C10_sorted_pipeline (o : buildOptions) (h : 1 < o.packages.length) :
    buildOrder o = sortModules o.packages ∧
    (buildOrder o).Perm o.packages ∧
    List.Sorted mLe (buildOrder o) ∧
    entrySourceBundle o = String.join ((sortModules o.packages).map exportLineBundle) ∧
    introSource o = introPro ++ String.join ((sortModules o.packages).map introLine) ++ introEpi ∧
    (∀ reg, resolveBuild reg o =
      resolveAll reg (sortModules o.packages) (initState (sortModules o.packages))) := by
  haveI : IsTotal module mLe := ⟨fun a b => strLeB_total _ _⟩
  haveI : IsTrans module mLe := ⟨fun _ _ _ => strLeB_trans⟩
  have h1 : ¬ o.packages.length = 1 := by omega
  have hb : buildOrder o = sortModules o.packages := by
    unfold buildOrder; rw [if_neg h1]
  refine ⟨hb, ?_, ?_, ?_, ?_, ?_⟩
  · rw [hb]; exact List.perm_insertionSort mLe o.packages
  · rw [hb]; exact List.sorted_insertionSort mLe o.packages
  · unfold entrySourceBundle; rw [hb]
  · unfold introSource; rw [hb]
  · intro reg; unfold resolveBuild; rw [hb]

/-- Witness for C10 on a permuted react request. -/
theorem C10_sorted_pipeline_witness :
    buildOrder ⟨[⟨"react-dom", "17.0.2", ""⟩, ⟨"react", "17.0.2", ""⟩], "es2019", false⟩ =
      sortModules [⟨"react-dom", "17.0.2", ""⟩, ⟨"react", "17.0.2", ""⟩] ∧
    List.Sorted mLe (buildOrder ⟨[⟨"react-dom", "17.0.2", ""⟩, ⟨"react", "17.0.2", ""⟩], "es2019", false⟩) :=
  ⟨(C10_sorted_pipeline _ (by decide)).1, (C10_sorted_pipeline _ (by decide)).2.2.1⟩

/-- Keys of an upserted association list: every key was present before or
is the inserted key. -/
theorem upsert_keys (l : List (String × ImportMeta)) (key : String) (v : ImportMeta)
    (k : String) (hk : k ∈ (upsert l key v).map Prod.fst) :
    k ∈ l.map Prod.fst ∨ k = key := by
  unfold upsert at hk
  split at hk
  · left
    rw [List.map_map] at hk
    obtain ⟨kv, hkv, hfst⟩ := List.mem_map.mp hk
    have heq : (Prod.fst ∘ fun kv : String × ImportMeta =>
        if kv.1 = key then (key, v) else kv) kv = kv.1 := by
      by_cases hkey : kv.1 = key
      · simp [hkey]
      · simp [hkey]
    rw [heq] at hfst
    rw [← hfst]
    exact List.mem_map_of_mem Prod.fst hkv
  · rw [List.map_append] at hk
    rcases List.mem_append.mp hk with h | h
    · exact .inl h
    · right
      simpa using h

/-- A successful resolve step records the `@types` probe exactly when the
probe guard holds on the fetched descriptor. -/
theorem resolveOne_probes {reg : String → String → Except String NpmPackage}
    {st : ResolveState} {pkg : module} {st' : ResolveState}
    (h : resolveOne reg st pkg = .ok st') :
    st'.probes = st.probes ++
      (if typesProbeNeeded reg pkg then ["@types/" ++ pkg.name] else []) := by
  unfold resolveOne at h
  cases hr : reg pkg.name pkg.version with
  | error e => rw [hr] at h; cases h
  | ok p =>
    rw [hr] at h
    dsimp only at h
    unfold typesProbeNeeded
    rw [hr]
    dsimp only
    by_cases hc : needsTypesProbe pkg p = true
    · rw [if_pos hc] at h
      rw [if_pos hc]
      cases hp : reg ("@types/" ++ pkg.name) "latest" with
      | ok info =>
        rw [hp] at h
        dsimp only at h
        by_cases hi : info.Types ≠ "" ∨ info.Typings ≠ "" ∨ info.Main ≠ ""
        · rw [if_pos hi] at h
          cases h
          rfl
        · rw [if_neg hi] at h
          cases h
          rfl
      | error e =>
        rw [hp] at h
        dsimp only at h
        by_cases he : e ≠ sentinelNotFound pkg.name
        · rw [if_pos he] at h
          cases h
        · rw [if_neg he] at h
          cases h
          rfl
    · rw [if_neg hc] at h
      rw [if_neg hc]
      cases h
      simp

/-- A successful resolve step changes `importMeta` only by an upsert at the
package's import path. -/
theorem resolveOne_keys {reg : String → String → Except String NpmPackage}
    {st : ResolveState} {pkg : module} {st' : ResolveState}
    (h : resolveOne reg st pkg = .ok st') :
    ∀ k ∈ st'.importMeta.map Prod.fst,
      k ∈ st.importMeta.map Prod.fst ∨ k = pkg.ImportPath := by
  unfold resolveOne at h
  cases hr : reg pkg.name pkg.version with
  | error e => rw [hr] at h; cases h
  | ok p =>
    rw [hr] at h
    dsimp only at h
    by_cases hc : needsTypesProbe pkg p = true
    · rw [if_pos hc] at h
      cases hp : reg ("@types/" ++ pkg.name) "latest" with
      | ok info =>
        rw [hp] at h
        dsimp only at h
        by_cases hi : info.Types ≠ "" ∨ info.Typings ≠ "" ∨ info.Main ≠ ""
        · rw [if_pos hi] at h
          cases h
          intro k hk
          exact upsert_keys _ _ _ k hk
        · rw [if_neg hi] at h
          cases h
          intro k hk
          exact upsert_keys _ _ _ k hk
      | error e =>
        rw [hp] at h
        dsimp only at h
        by_cases he : e ≠ sentinelNotFound pkg.name
        · rw [if_pos he] at h
          cases h
        · rw [if_neg he] at h
          cases h
          intro k hk
          exact upsert_keys _ _ _ k hk
    · rw [if_neg hc] at h
      cases h
      intro k hk
      exact upsert_keys _ _ _ k hk

/-- Probe log of a successful run of the resolution loop: exactly the
`@types/{name}` probes of the packages satisfying the probe guard, in
request order. -/
theorem resolveAll_probes {reg : String → String → Except String NpmPackage} :
    ∀ (pkgs : List module) (st st' : ResolveState),
    resolveAll reg pkgs st = .ok st' →
    st'.probes = st.probes ++
      (pkgs.filter (fun p => typesProbeNeeded reg p)).map (fun p => "@types/" ++ p.name) := by
  intro pkgs
  induction pkgs with
  | nil =>
    intro st st' h
    cases h
    simp
  | cons pkg rest ih =>
    intro st st' h
    unfold resolveAll at h
    cases ho : resolveOne reg st pkg with
    | error e => rw [ho] at h; cases h
    | ok st1 =>
      rw [ho] at h
      have h1 := resolveOne_probes ho
      have h2 := ih st1 st' h
      rw [h2, h1, List.filter_cons]
      by_cases hc : typesProbeNeeded reg pkg = true
      · rw [if_pos hc, if_pos hc]
        simp
      · rw [if_neg hc, if_neg hc]
        simp

/-- Keys reachable after a successful run of the resolution loop. -/
theorem resolveAll_keys {reg : String → String → Except String NpmPackage} :
    ∀ (pkgs : List module) (st st' : ResolveState),
    resolveAll reg pkgs st = .ok st' →
    ∀ k ∈ st'.importMeta.map Prod.fst,
      k ∈ st.importMeta.map Prod.fst ∨ ∃ m ∈ pkgs, k = m.ImportPath := by
  intro pkgs
  induction pkgs with
  | nil =>
    intro st st' h k hk
    cases h
    exact .inl hk
  | cons pkg rest ih =>
    intro st st' h k hk
    unfold resolveAll at h
    cases ho : resolveOne reg st pkg with
    | error e => rw [ho] at h; cases h
    | ok st1 =>
      rw [ho] at h
      rcases ih st1 st' h k hk with h1 | ⟨m, hm, he⟩
      · rcases resolveOne_keys ho k h1 with h2 | h2
        · exact .inl h2
        · exact .inr ⟨pkg, List.mem_cons_self pkg rest, h2⟩
      · exact .inr ⟨m, List.mem_cons_of_mem pkg hm, he⟩

/-- The probe guard implies the package is not scoped. -/
theorem typesProbeNeeded_not_scoped {reg : String → String → Except String NpmPackage}
    {pkg : module} (h : typesProbeNeeded reg pkg = true) :
    strStartsWith pkg.name "@" = false := by
  unfold typesProbeNeeded at h
  cases hr : reg pkg.name pkg.version with
  | error e => rw [hr] at h; cases h
  | ok d =>
    rw [hr] at h
    unfold needsTypesProbe at h
    simp only [Bool.and_eq_true, Bool.not_eq_true'] at h
    exact h.2

/-- Cancellation of a common prefix of strings. -/
theorem strAppendCancel {p a b : String} (h : p ++ a = p ++ b) : a = b := by
  apply String.ext
  have hd := congrArg String.data h
  rw [String.data_append, String.data_append] at hd
  exact List.append_cancel_left hd

/-- C7: the `@types/{name}@latest` probe is issued exactly for requested
packages that are not scoped and whose descriptor has empty `Types` and
`Typings`; a probe error carrying exactly the sentinel not-found message is
ignored while any other probe error aborts the resolution with that error;
and a scoped package never triggers a probe. -/
theorem C7_types_probe (reg : String → String → Except String NpmPackage) :
    (∀ (st : ResolveState) (pkg : module) (p : NpmPackage) (e : String),
        reg pkg.name pkg.version = .ok p → needsTypesProbe pkg p = true →
        reg ("@types/" ++ pkg.name) "latest" = .error e → e ≠ sentinelNotFound pkg.name →
        resolveOne reg st pkg = .error e) ∧
    (∀ (st : ResolveState) (pkg : module) (p : NpmPackage),
        reg pkg.name pkg.version = .ok p → needsTypesProbe pkg p = true →
        reg ("@types/" ++ pkg.name) "latest" = .error (sentinelNotFound pkg.name) →
        ∃ st', resolveOne reg st pkg = .ok st' ∧
          st'.probes = st.probes ++ ["@types/" ++ pkg.name]) ∧
    (∀ (pkgs : List module) (st st' : ResolveState),
        resolveAll reg pkgs st = .ok st' →
        st'.probes = st.probes ++
          (pkgs.filter (fun p => typesProbeNeeded reg p)).map (fun p => "@types/" ++ p.name)) ∧
    (∀ (pkgs : List module) (st st' : ResolveState) (pkg : module),
        resolveAll reg pkgs st = .ok st' → pkg ∈ pkgs →
        strStartsWith pkg.name "@" = true →
        ("@types/" ++ pkg.name) ∉ st'.probes.drop st.probes.length) := by
  refine ⟨?_, ?_, fun pkgs st st' h => resolveAll_probes pkgs st st' h, ?_⟩
  · intro st pkg p e hr hc hp he
    unfold resolveOne
    rw [hr]
    dsimp only
    rw [if_pos hc, hp]
    dsimp only
    rw [if_pos he]
  · intro st pkg p hr hc hp
    refine ⟨{ installList := st.installList,
              importMeta := upsert st.importMeta pkg.ImportPath ⟨p, [], ""⟩,
              peerDeps := insertPeers st.peerDeps (p.PeerDependencies.map Prod.fst),
              probes := st.probes ++ ["@types/" ++ pkg.name] }, ?_, rfl⟩
    unfold resolveOne
    rw [hr]
    dsimp only
    rw [if_pos hc, hp]
    dsimp only
    rw [if_neg (by simp)]
  · intro pkgs st st' pkg h hmem hscoped
    rw [resolveAll_probes pkgs st st' h, List.drop_left]
    intro hin
    obtain ⟨q, hq, he⟩ := List.mem_map.mp hin
    have hqf : typesProbeNeeded reg q = true := (List.mem_filter.mp hq).2
    have hname : q.name = pkg.name := strAppendCancel he
    have hns : strStartsWith q.name "@" = false := typesProbeNeeded_not_scoped hqf
    rw [hname, hscoped] at hns
    cases hns

/-- Witness for C7: a request containing `lodash` (whose `@types` probe
fails with exactly the sentinel) and a scoped package; the probe log is the
single `@types/lodash` entry. -/
theorem C7_types_probe_witness :
    (⟨["lodash@4.17.21", "@scope/pkg@1.0.0"],
      [("lodash", ⟨npmLodash, [], ""⟩), ("@scope/pkg", ⟨npmScope, [], ""⟩)],
      [], ["@types/lodash"]⟩ : ResolveState).probes =
      (initState pkgsW).probes ++
        (pkgsW.filter (fun p => typesProbeNeeded regW p)).map (fun p => "@types/" ++ p.name) :=
  (C7_types_probe regW).2.2.1 pkgsW (initState pkgsW)
    ⟨["lodash@4.17.21", "@scope/pkg@1.0.0"],
      [("lodash", ⟨npmLodash, [], ""⟩), ("@scope/pkg", ⟨npmScope, [], ""⟩)],
      [], ["@types/lodash"]⟩ (by rfl)

/-- The introspection merge never changes the key list of importMeta. -/
theorem mergeExports_keys (out : List (String × List String)) :
    ∀ meta : List (String × ImportMeta),
      (mergeExports meta out).map Prod.fst = meta.map Prod.fst := by
  induction out with
  | nil => intro meta; rfl
  | cons kv rest ih =>
    intro meta
    show (mergeExports (meta.map fun entry =>
        if entry.1 = kv.1 then (entry.1, { entry.2 with Exports := kv.2 }) else entry) rest).map
          Prod.fst = meta.map Prod.fst
    rw [ih, List.map_map]
    apply List.map_congr_left
    intro entry _
    by_cases hkey : entry.1 = kv.1
    · simp [hkey]
    · simp [hkey]

/-- C8: after a successful resolution started from the initial state and
the merge of the introspection output, every key of importMeta is the
ImportPath of some requested specifier; introspection entries with other
keys are never added. -/
theorem C8_importMeta_keys (reg : String → String → Except String NpmPackage)
    (pkgs : List module) (st' : ResolveState) (out : List (String × List String)) (k : String)
    (h : resolveAll reg pkgs (initState pkgs) = .ok st')
    (hk : k ∈ (mergeExports st'.importMeta out).map Prod.fst) :
    ∃ m ∈ pkgs, k = m.ImportPath := by
  rw [mergeExports_keys] at hk
  rcases resolveAll_keys pkgs (initState pkgs) st' h k hk with h0 | h1
  · simp [initState] at h0
  · exact h1

/-- Witness for C8: the `left-pad` request with an introspection output
containing a stray key still yields only the requested import path. -/
theorem C8_importMeta_keys_witness :
    ∃ m ∈ pkgs8, "left-pad" = module.ImportPath m :=
  C8_importMeta_keys reg8 pkgs8
    ⟨["left-pad@1.3.0"], [("left-pad", ⟨npmLeftPad, [], ""⟩)], [], ["@types/left-pad"]⟩
    [("left-pad", ["default"]), ("stray", ["x"])] "left-pad" (by rfl) (by decide)

/-- C1 counterexample: in bundle mode an independent peer (`x`, peer of a
requested package, neither requested nor a dependency) is absent from the
`independentPackages` map, and in single mode a non-independent peer (`y`,
also a regular dependency of the requested package) is present in it; both
contradict the claim that the externals set is exactly the independent
peers in both modes. -/
theorem C1_externals_counterexample :
    isIndependent pkgsX metaX "x" = true ∧
    (classifyPeers false pkgsX metaX [] ["x"]).2 = [] ∧
    isIndependent pkgsY metaY "y" = false ∧
    (classifyPeers true pkgsY metaY [] ["y"]).2 = [("y", "latest")] := by decide

/-- C1 (amended): the `independentPackages` map — whose keys become the
bundler externals — collects every peer-dependency name with version
`"latest"` in single mode and is empty in bundle mode, while independence
(not requested, not a dependency of any requested package) controls exactly
which peer names are appended to the install list. -/
theorem C1_externals_amended (single : Bool) (packages : List module)
    (importMeta : List (String × ImportMeta)) :
    ∀ (peers installList : List String),
    (classifyPeers single packages importMeta installList peers).2 =
      (if single then peers.map (fun n => (n, "latest")) else []) ∧
    (classifyPeers single packages importMeta installList peers).1 =
      installList ++ peers.filter (isIndependent packages importMeta) := by
  intro peers
  induction peers with
  | nil =>
    intro l
    constructor
    · cases single <;> rfl
    · simp [classifyPeers]
  | cons n rest ih =>
    intro l
    unfold classifyPeers
    dsimp only
    constructor
    · rw [(ih _).1]
      cases single <;> simp
    · rw [(ih _).2, List.filter_cons]
      by_cases hi : isIndependent packages importMeta n = true
      · rw [if_pos hi]
        simp [hi]
      · have hi' : isIndependent packages importMeta n = false := by
          cases hfull : isIndependent packages importMeta n
          · rfl
          · exact absurd hfull hi
        rw [hi']
        simp [hi']

/-- C2 (code behavior at the failing input): with a stored record whose
`importMeta` fails to decode and a successful `db.Delete`, the lookup
returns an early success carrying no decoded metadata when the artifact
file exists — instead of proceeding as a miss — and proceeds as a miss only
when the artifact file is absent. -/
theorem C2_cache_decode_bug :
    cacheLookup (.ok "corrupt") (fun _ => none) (.ok ()) true = .hit none ∧
    cacheLookup (.ok "corrupt") (fun _ => none) (.ok ()) false = .miss :=
  ⟨rfl, rfl⟩

/-- C3 counterexample: with the artifact written successfully and the KV
write failing, `build` still returns success with the computed importMeta;
the `db.Put` failure is not surfaced. -/
theorem C3_kv_write_counterexample :
    finishBuild (.ok ()) (.ok ()) (.error "kv write failed") [] = .ok [] := rfl

/-- C3 (amended): the result of the KV write is discarded by the source:
whenever the artifact file is created and written successfully, `build`
returns the computed importMeta as a success regardless of the outcome of
`db.Put`. -/
theorem C3_kv_write_amended (putRes : Except String Unit)
    (meta : List (String × ImportMeta)) :
    finishBuild (.ok ()) (.ok ()) putRes meta = .ok meta := rfl

/-- C4 counterexample: a bundler failure whose first text begins with
`Could not resolve "` but whose extracted name is empty is immediately
fatal with the prefixed error text; the bundle is not retried (the next
outcome in the trace would have succeeded) and nothing is installed —
whereas for a non-empty extracted name the loop does install and retry. -/
theorem C4_retry_counterexample :
    retryLoop yarnOk [.fail "Could not resolve \"\" import", .ok "bundled"] [] [] =
      .error "esbuild: Could not resolve \"\" import" ∧
    retryLoop yarnOk [.fail "Could not resolve \"x\" import", .ok "bundled"] [] [] =
      .ok ("bundled", ["x"]) :=
  ⟨rfl, rfl⟩

/-- C4 (amended): on a bundler failure whose first text begins with
`Could not resolve "`, a non-empty extracted name that is not yet in the
seen-set is installed and the bundle retried; an already-seen or empty
extracted name, or any other first message, fails immediately with the
bundler's error text prefixed by `esbuild: `; and every successful run
installs each missing name at most once (the ghost install log gains only
fresh, pairwise-distinct names). -/
theorem C4_retry_amended (yarn : String → Except String Unit) :
    (∀ (t : String) (rest : List EsbuildOutcome) (seen installs : List String),
        strStartsWith t couldNotResolveMsg = true →
        missingModuleOf t ≠ "" → missingModuleOf t ∉ seen →
        yarn (missingModuleOf t) = .ok () →
        retryLoop yarn (.fail t :: rest) seen installs =
          retryLoop yarn rest (missingModuleOf t :: seen) (installs ++ [missingModuleOf t])) ∧
    (∀ (t : String) (rest : List EsbuildOutcome) (seen installs : List String),
        strStartsWith t couldNotResolveMsg = true → missingModuleOf t ∈ seen →
        retryLoop yarn (.fail t :: rest) seen installs = .error ("esbuild: " ++ t)) ∧
    (∀ (t : String) (rest : List EsbuildOutcome) (seen installs : List String),
        strStartsWith t couldNotResolveMsg = true → missingModuleOf t = "" →
        retryLoop yarn (.fail t :: rest) seen installs = .error ("esbuild: " ++ t)) ∧
    (∀ (t : String) (rest : List EsbuildOutcome) (seen installs : List String),
        strStartsWith t couldNotResolveMsg = false →
        retryLoop yarn (.fail t :: rest) seen installs = .error ("esbuild: " ++ t)) ∧
    (∀ (trace : List EsbuildOutcome) (seen installs : List String) (out : String)
        (installs2 : List String),
        retryLoop yarn trace seen installs = .ok (out, installs2) →
        ∃ fresh, installs2 = installs ++ fresh ∧ fresh.Nodup ∧ ∀ n ∈ fresh, n ∉ seen) := by
  refine ⟨?_, ?_, ?_, ?_, ?_⟩
  · intro t rest seen installs hpre hne hnotin hyarn
    conv_lhs => unfold retryLoop
    rw [if_pos hpre, if_pos ⟨hne, hnotin⟩, hyarn]
  · intro t rest seen installs hpre hseen
    unfold retryLoop
    rw [if_pos hpre, if_neg (fun hand => hand.2 hseen)]
  · intro t rest seen installs hpre hempty
    unfold retryLoop
    rw [if_pos hpre, if_neg (fun hand => hand.1 hempty)]
  · intro t rest seen installs hpre
    unfold retryLoop
    rw [if_neg (by rw [hpre]; exact Bool.false_ne_true)]
  · intro trace
    induction trace with
    | nil => intro seen installs out installs2 h; cases h
    | cons o rest ih =>
      intro seen installs out installs2 h
      cases o with
      | ok s =>
        unfold retryLoop at h
        cases h
        exact ⟨[], by simp, List.nodup_nil, by simp⟩
      | fail t =>
        unfold retryLoop at h
        by_cases hpre : strStartsWith t couldNotResolveMsg = true
        · rw [if_pos hpre] at h
          by_cases hcond : missingModuleOf t ≠ "" ∧ missingModuleOf t ∉ seen
          · rw [if_pos hcond] at h
            cases hy : yarn (missingModuleOf t) with
            | error e => rw [hy] at h; cases h
            | ok u =>
              rw [hy] at h
              dsimp only at h
              obtain ⟨fresh, hf1, hf2, hf3⟩ :=
                ih (missingModuleOf t :: seen) (installs ++ [missingModuleOf t]) out installs2 h
              refine ⟨missingModuleOf t :: fresh, ?_, ?_, ?_⟩
              · rw [hf1, List.append_assoc]
                rfl
              · refine List.nodup_cons.mpr ⟨?_, hf2⟩
                intro hmem
                exact hf3 (missingModuleOf t) hmem (List.mem_cons_self _ _)
              · intro n hn
                rcases List.mem_cons.mp hn with rfl | hn'
                · exact hcond.2
                · intro hns
                  exact hf3 n hn' (List.mem_cons_of_mem _ hns)
          · rw [if_neg hcond] at h
            cases h
        · rw [if_neg (by rw [Bool.not_eq_true] at hpre; rw [hpre]; exact Bool.false_ne_true)] at h
          cases h

/-- Witness for C4 (amended): one concrete retry step, a fatal repeat, and
a fatal non-matching error. -/
theorem C4_retry_witness :
    retryLoop yarnOk [.fail "Could not resolve \"mod-x\" in bundle.js", .ok "out"] [] [] =
      retryLoop yarnOk [.ok "out"] ["mod-x"] ["mod-x"] ∧
    retryLoop yarnOk [.fail "Could not resolve \"mod-x\" in bundle.js"] ["mod-x"] ["mod-x"] =
      .error ("esbuild: " ++ "Could not resolve \"mod-x\" in bundle.js") ∧
    retryLoop yarnOk [.fail "Cannot read bundle.js"] [] [] =
      .error ("esbuild: " ++ "Cannot read bundle.js") :=
  ⟨(C4_retry_amended yarnOk).1 _ _ _ _ (by rfl) (by decide) (by decide) rfl,
   (C4_retry_amended yarnOk).2.1 _ _ _ _ (by rfl) (by decide),
   (C4_retry_amended yarnOk).2.2.2.1 _ _ _ _ (by rfl)⟩
